import Mathlib

/-!
Shallow embedding of `src/frontend/src/pages/patient/BookAppointment.tsx`,
which contains two view-controllers: `BookAppointment` (appointment booking)
and `Messages` (patient-provider chat). External service calls are modelled
as explicit `FetchResult` values passed into the handlers; component state is
an explicit record and each handler is a state-transformer that additionally
reports the requests it sent and the alerts it raised.
-/

namespace Medsuy

/-- Result of an awaited external-service call: the resolved value, or a
thrown error caught by the surrounding try/catch. -/
inductive FetchResult (α : Type) where
  | ok (v : α)
  | err
deriving DecidableEq

/-- Hard-coded patient identifier, `const PATIENT_ID = 3` in the source. -/
def PATIENT_ID : Nat := 3

/-! ### Booking flow: data model -/

/-- Civil date-time carried by a raw slot's `datetime` field (the string is
parsed by `new Date(...)`; we model the parsed calendar instant directly,
since the same local zone is used for parsing and formatting). -/
structure DateTime where
  year : Nat
  month : Nat
  day : Nat
  hour : Nat
  minute : Nat
  second : Nat
deriving DecidableEq

/-- Raw appointment slot as returned by `getAvailableAppointments()`:
`{id, doctor, specialty, branch, datetime}`. -/
structure RawSlot where
  id : Nat
  doctor : String
  specialty : String
  branch : String
  datetime : DateTime
deriving DecidableEq

/-- Display record built by `loadAppointments` for each raw slot. -/
structure Appt where
  id : Nat
  doctor : String
  specialty : String
  location : String
  avatar : String
  date : String
  time : String
deriving DecidableEq

/-- Leap-year test of the proleptic Gregorian calendar. -/
def isLeap (y : Nat) : Bool :=
  (y % 4 == 0 && y % 100 != 0) || y % 400 == 0

/-- Days elapsed in year before the first day of month `m` (1-based). -/
def daysBeforeMonth (leap : Bool) (m : Nat) : Nat :=
  [0, 31, 59, 90, 120, 151, 181, 212, 243, 273, 304, 334].getD (m - 1) 0 +
    (if leap && decide (m > 2) then 1 else 0)

/-- Day number of a civil date counted from 0001-01-01 (day 0), proleptic
Gregorian. -/
def dayNumber (y m d : Nat) : Nat :=
  (y - 1) * 365 + (y - 1) / 4 - (y - 1) / 100 + (y - 1) / 400 +
    daysBeforeMonth (isLeap y) m + (d - 1)

/-- Day of week, 0 = Sunday; 0001-01-01 was a Monday. -/
def weekday (y m d : Nat) : Nat :=
  (dayNumber y m d + 1) % 7

/-- Abbreviated en-US weekday names used by `toLocaleDateString`. -/
def weekdayNames : List String :=
  ["Sun", "Mon", "Tue", "Wed", "Thu", "Fri", "Sat"]

/-- Long en-US month names used by `toLocaleDateString`. -/
def monthNames : List String :=
  ["January", "February", "March", "April", "May", "June", "July",
   "August", "September", "October", "November", "December"]

/-- Left-pad a number to two digits, as the `2-digit` option does. -/
def two (n : Nat) : String :=
  if n < 10 then "0" ++ toString n else toString n

/-- en-US date format with weekday short, month long, day numeric:
`dateObj.toLocaleDateString("en-US", {weekday, month, day})`. -/
def fmtDate (dt : DateTime) : String :=
  weekdayNames.getD (weekday dt.year dt.month dt.day) "" ++ ", " ++
    monthNames.getD (dt.month - 1) "" ++ " " ++ toString dt.day

/-- en-US 12-hour clock with 2-digit hour and minute:
`dateObj.toLocaleTimeString("en-US", {hour, minute})`. -/
def fmtTime (dt : DateTime) : String :=
  let h := dt.hour % 12
  let h12 := if h == 0 then 12 else h
  let ampm := if dt.hour < 12 then "AM" else "PM"
  two h12 ++ ":" ++ two dt.minute ++ " " ++ ampm

/-- Per-item projection inside `loadAppointments`: raw slot to display
record (the mapped object literal at lines 46-61 of the source). -/
def projectSlot (item : RawSlot) : Appt :=
  { id := item.id
    doctor := item.doctor
    specialty := item.specialty
    location := item.branch
    avatar := ""
    date := fmtDate item.datetime
    time := fmtTime item.datetime }

/-! ### Booking flow: state and handlers -/

/-- State of the `BookAppointment` component: the three `useState` hooks
`appointments`, `loading`, `error` (the `timeOfDay` filter is handled
separately by `toggleTimeOfDay`). -/
structure BookingState where
  appointments : List Appt
  loading : Bool
  error : Option String
deriving DecidableEq

/-- Initial booking state: `useState([])`, `useState(true)`,
`useState(null)`. -/
def initBooking : BookingState :=
  { appointments := [], loading := true, error := none }

/-- The `loadAppointments` async function, with the awaited
`getAvailableAppointments()` outcome passed in as `res`: on success it maps
the raw list through `projectSlot` and stores it; on error it sets the error
message; `finally` clears `loading` in both cases. -/
def loadAppointments (res : FetchResult (List RawSlot)) (s : BookingState) :
    BookingState :=
  match res with
  | .ok l => { s with appointments := l.map projectSlot, loading := false }
  | .err =>
      { s with error := some "Error loading available appointments",
               loading := false }

/-- Outcome of `handleReserve`: resulting state, reservation requests sent
as `(patientId, appointmentId)` pairs, and alert notices raised. -/
structure ReserveOutcome where
  state : BookingState
  requests : List (Nat × Nat)
  alerts : List String
deriving DecidableEq

/-- The `handleReserve` async function: always sends one
`reserveAppointment(PATIENT_ID, appointmentId)` request; on success it
alerts a confirmation and re-runs `loadAppointments` (with outcome
`loadRes`); on failure it alerts a generic error and touches no state. -/
def handleReserve (reserveRes : FetchResult Unit)
    (loadRes : FetchResult (List RawSlot)) (s : BookingState)
    (appointmentId : Nat) : ReserveOutcome :=
  match reserveRes with
  | .ok _ =>
      { state := loadAppointments loadRes s
        requests := [(PATIENT_ID, appointmentId)]
        alerts := ["Reserva realizada correctamente"] }
  | .err =>
      { state := s
        requests := [(PATIENT_ID, appointmentId)]
        alerts := ["Error al reservar el turno"] }

/-- What the booking component renders, by branch. -/
inductive BookingRender where
  | loading
  | errored (msg : String)
  | list (appts : List Appt)
deriving DecidableEq

/-- Render function of `BookAppointment`: the early `if (loading)` return,
then the `if (error)` return, then the slot list. -/
def renderBooking (s : BookingState) : BookingRender :=
  if s.loading then .loading
  else
    match s.error with
    | some msg => .errored msg
    | none => .list s.appointments

/-- The `toggleTimeOfDay` updater: if the period is already in the selection
it is filtered out, otherwise it is appended (`[...prev, period]`). -/
def toggleTimeOfDay (period : String) (prev : List String) : List String :=
  if prev.contains period then prev.filter (fun p => p != period)
  else prev ++ [period]

/-! ### Messaging flow: data model -/

/-- Raw conversation record from `getPatientConversations(patientId)`:
`{id, doctor, specialty, last_message, time, unread, avatar?}`, the avatar
field possibly absent (nullish). -/
structure RawConv where
  id : Nat
  doctor : String
  specialty : String
  last_message : String
  time : String
  unread : Nat
  avatar : Option String
deriving DecidableEq

/-- Display conversation record built by `loadConversations`. -/
structure Conv where
  id : Nat
  doctor : String
  specialty : String
  lastMessage : String
  time : String
  unread : Nat
  avatar : String
deriving DecidableEq

/-- Raw message record from `getConversationMessages`:
`{id, sender, text, time}`. -/
structure RawMsg where
  id : Nat
  sender : String
  text : String
  time : String
deriving DecidableEq

/-- Display message record built by `loadMessages`. -/
structure Msg where
  id : Nat
  sender : String
  text : String
  time : String
deriving DecidableEq

/-- Initials of a name:
`doctor.split(" ").map((n) => n[0]).join("")` (a first character of an
empty piece contributes nothing, as `join` skips undefined). -/
def initials (name : String) : String :=
  String.join ((name.splitOn " ").map (fun n => n.take 1))

/-- Per-item projection inside `loadConversations`: raw record to display
record, the avatar defaulting to computed initials via `??`. -/
def projectConv (item : RawConv) : Conv :=
  { id := item.id
    doctor := item.doctor
    specialty := item.specialty
    lastMessage := item.last_message
    time := item.time
    unread := item.unread
    avatar := item.avatar.getD (initials item.doctor) }

/-- Per-item projection inside `loadMessages`. -/
def projectMsg (msg : RawMsg) : Msg :=
  { id := msg.id, sender := msg.sender, text := msg.text, time := msg.time }

/-! ### Messaging flow: state and handlers -/

/-- State of the `Messages` component: the seven `useState` hooks. -/
structure MsgState where
  conversations : List Conv
  messages : List Msg
  selectedConversation : Option Conv
  searchQuery : String
  messageText : String
  loadingConversations : Bool
  loadingMessages : Bool
deriving DecidableEq

/-- Initial messaging state. -/
def initMsg : MsgState :=
  { conversations := [], messages := [], selectedConversation := none,
    searchQuery := "", messageText := "",
    loadingConversations := true, loadingMessages := false }

/-- The `loadConversations` async function (mount effect), with the awaited
`getPatientConversations(PATIENT_ID)` outcome passed in as `res`: on success
it stores the projected list and selects its first element when the list is
non-empty; on error only the catch logs; `finally` clears
`loadingConversations`. -/
def loadConversations (res : FetchResult (List RawConv)) (s : MsgState) :
    MsgState :=
  match res with
  | .ok data =>
      let formatted := data.map projectConv
      let s1 := { s with conversations := formatted }
      let s2 :=
        match formatted with
        | [] => s1
        | c :: _ => { s1 with selectedConversation := some c }
      { s2 with loadingConversations := false }
  | .err => { s with loadingConversations := false }

/-- The `loadMessages` async function (effect on `selectedConversation`),
with the external service modelled as `fetch` from conversation id to
outcome. With no selection it returns immediately (no request). Otherwise it
sends `getConversationMessages(PATIENT_ID, selectedConversation.id)`; on
success it overwrites `messages` with the projected list, on error only the
catch logs; `finally` clears `loadingMessages`. The second component lists
the `(patientId, conversationId)` requests sent. -/
def loadMessages (fetch : Nat → FetchResult (List RawMsg)) (s : MsgState) :
    MsgState × List (Nat × Nat) :=
  match s.selectedConversation with
  | none => (s, [])
  | some conv =>
      match fetch conv.id with
      | .ok data =>
          ({ s with messages := data.map projectMsg, loadingMessages := false },
           [(PATIENT_ID, conv.id)])
      | .err =>
          ({ s with loadingMessages := false }, [(PATIENT_ID, conv.id)])

/-- JavaScript `String.prototype.toLowerCase()`: character-wise lowering
over the string's characters. -/
def strToLower (s : String) : String :=
  ⟨s.data.map Char.toLower⟩

/-- JavaScript `String.prototype.includes`: substring containment. -/
def strIncludes (s pat : String) : Bool :=
  decide (pat.toList <:+: s.toList)

/-- Predicate of the `filteredConversations` filter: the lower-cased query
is a substring of the lower-cased doctor name or specialty. -/
def convMatches (searchQuery : String) (conv : Conv) : Bool :=
  strIncludes (strToLower conv.doctor) (strToLower searchQuery) ||
    strIncludes (strToLower conv.specialty) (strToLower searchQuery)

/-- The derived `filteredConversations` value. -/
def filteredConversations (conversations : List Conv)
    (searchQuery : String) : List Conv :=
  conversations.filter (convMatches searchQuery)

/-- What the conversation sidebar renders: the loading text, or the filtered
conversation list. There is no error branch in the source. -/
inductive ConvPanelRender where
  | loading
  | list (convs : List Conv)
deriving DecidableEq

/-- Render function of the conversation sidebar. -/
def renderConvPanel (s : MsgState) : ConvPanelRender :=
  if s.loadingConversations then .loading
  else .list (filteredConversations s.conversations s.searchQuery)

/-- The `onKeyDown` handler of the message composer: on Enter without Shift
it prevents the default and clears `messageText`; it sends no request. The
second component lists requests sent to the external service (always none).
-/
def handleComposerKeyDown (key : String) (shiftKey : Bool) (s : MsgState) :
    MsgState × List (Nat × Nat) :=
  if key == "Enter" && !shiftKey then ({ s with messageText := "" }, [])
  else (s, [])

/-! ### Race model for the message fetch

The `loadMessages` effect re-runs on every selection change and there is no
cancellation of superseded in-flight fetches: responses apply last-write-wins
in arrival order. `RaceState` abstracts the relevant part of `MsgState`
(`selected` by id, the in-flight request queue in issue order, and the
displayed messages); `raceStep` interleaves selection changes with response
arrivals, a `complete i` event delivering the response of the i-th pending
request with the ok-branch of `loadMessages`. -/

/-- Events of the interleaving semantics: the user selects conversation `c`
(issuing a fetch), or the `i`-th in-flight fetch response arrives. -/
inductive MEvent where
  | select (c : Nat)
  | complete (i : Nat)
deriving DecidableEq

/-- Abstracted messaging state for the race analysis. -/
structure RaceState where
  selected : Option Nat
  pending : List Nat
  messages : List Msg
deriving DecidableEq

/-- Initial race state: nothing selected, no in-flight fetch, no messages. -/
def raceInit : RaceState :=
  { selected := none, pending := [], messages := [] }

/-- One step of the interleaving semantics; `fetch` is the backend's message
list per conversation id. A `select` records the new selection and enqueues
its fetch; a `complete i` removes the i-th pending fetch and overwrites the
displayed messages with its projected response (last write wins, no staleness
check, as in the source effect). -/
def raceStep (fetch : Nat → List RawMsg) (s : RaceState) : MEvent → RaceState
  | .select c =>
      { s with selected := some c, pending := s.pending ++ [c] }
  | .complete i =>
      match s.pending.get? i with
      | some c =>
          { s with pending := s.pending.eraseIdx i,
                   messages := (fetch c).map projectMsg }
      | none => s

/-- Run a trace of events from the initial state. -/
def raceRun (fetch : Nat → List RawMsg) (evs : List MEvent) : RaceState :=
  evs.foldl (raceStep fetch) raceInit

/-- A trace is FIFO when every response arrival delivers the oldest pending
request (responses arrive in issue order). -/
def isFifo (evs : List MEvent) : Bool :=
  evs.all (fun e => match e with | .complete i => i == 0 | .select _ => true)

/-- Invariant of FIFO traces: with no fetch in flight the displayed messages
are those fetched for the selected conversation, and with fetches in flight
the most recently issued one targets the selected conversation. -/
def RaceInv (fetch : Nat → List RawMsg) (s : RaceState) : Prop :=
  (s.pending = [] → ∀ c, s.selected = some c →
    s.messages = (fetch c).map projectMsg) ∧
  (s.pending ≠ [] → s.pending.getLast? = s.selected)

/-! ### Spec-side display record for the booking projection

The spec (§4.1) describes the projected display record by the six fields
`{id, providerName, specialty, location, displayDate, displayTime}`. The
following definitions state that description so it can be compared with the
record the code builds. -/

/-- Display record exactly as named by the spec. -/
structure SpecDisplay where
  id : Nat
  providerName : String
  specialty : String
  location : String
  displayDate : String
  displayTime : String
deriving DecidableEq

/-- Projection following the spec wording: raw slot to the six-field spec
record, with the locale formatting applied to the slot's instant. -/
def projectSlotSpec (item : RawSlot) : SpecDisplay :=
  { id := item.id
    providerName := item.doctor
    specialty := item.specialty
    location := item.branch
    displayDate := fmtDate item.datetime
    displayTime := fmtTime item.datetime }

/-- Reading of the six spec fields off the record the code builds. -/
def apptToSpec (a : Appt) : SpecDisplay :=
  { id := a.id
    providerName := a.doctor
    specialty := a.specialty
    location := a.location
    displayDate := a.date
    displayTime := a.time }

/-! ### Concrete fixtures used by witnesses and counterexamples -/

/-- Backend message lists for the race scenarios: conversations 1 and 2
carry different messages. -/
def fetchEx : Nat → List RawMsg := fun c =>
  if c == 1 then [{ id := 1, sender := "doctor", text := "from one", time := "09:00" }]
  else [{ id := 2, sender := "doctor", text := "from two", time := "09:05" }]

/-- Adverse trace: select conversation 1, then 2, then 1 again; both
responses for conversation 1 arrive first and the response for
conversation 2 arrives last (out-of-order completion). -/
def adverseTrace : List MEvent :=
  [.select 1, .select 2, .select 1, .complete 0, .complete 1, .complete 0]

/-- FIFO trace: select 1, its response arrives, select 2, its response
arrives. -/
def fifoTrace : List MEvent :=
  [.select 1, .complete 0, .select 2, .complete 0]

/-- Sample display conversation. -/
def convA : Conv :=
  { id := 1, doctor := "Dr. House", specialty := "Cardiology",
    lastMessage := "hi", time := "10:00", unread := 0, avatar := "DH" }

/-- Sample raw conversation without avatar field. -/
def rawConvA : RawConv :=
  { id := 1, doctor := "Dr. House", specialty := "Cardiology",
    last_message := "hi", time := "10:00", unread := 0, avatar := none }

/-- Messaging state with `convA` selected and one message loaded. -/
def msgStateA : MsgState :=
  { initMsg with
      conversations := [convA]
      selectedConversation := some convA
      messages := [{ id := 7, sender := "patient", text := "old", time := "09:59" }]
      loadingMessages := true }

/-- Sample raw slot, the spec scenario's slot
`{id: 1, doctor: "Dr. Lee", datetime: "2024-05-01T14:00:00"}`. -/
def rawSlotA : RawSlot :=
  { id := 1, doctor := "Dr. Lee", specialty := "GP", branch := "Main",
    datetime := { year := 2024, month := 5, day := 1,
                  hour := 14, minute := 0, second := 0 } }

/-! ### Theorems -/

/-- C2: every reservation attempt on slot `slotId` sends exactly the one
request pair `(3, slotId)`; on success the state is the result of re-running
`loadAppointments`, so a slot whose id is absent from the re-fetched raw
list is absent from the new display list; on failure the generic failure
notice is alerted and the state is left unchanged. -/
theorem C2_handleReserve_spec (reserveRes : FetchResult Unit)
    (loadRes : FetchResult (List RawSlot)) (s : BookingState) (slotId : Nat) :
    (handleReserve reserveRes loadRes s slotId).requests = [(3, slotId)] ∧
    (∀ u, reserveRes = .ok u →
      (handleReserve reserveRes loadRes s slotId).state =
        loadAppointments loadRes s ∧
      (∀ l, loadRes = .ok l → (∀ r ∈ l, r.id ≠ slotId) →
        ∀ a ∈ (handleReserve reserveRes loadRes s slotId).state.appointments,
          a.id ≠ slotId)) ∧
    (reserveRes = .err →
      (handleReserve reserveRes loadRes s slotId).state = s ∧
      (handleReserve reserveRes loadRes s slotId).alerts =
        ["Error al reservar el turno"]) := by
  refine ⟨?_, ?_, ?_⟩
  · cases reserveRes <;> rfl
  · rintro u rfl
    refine ⟨rfl, ?_⟩
    rintro l rfl habs a ha
    simp only [handleReserve, loadAppointments, List.mem_map] at ha
    obtain ⟨r, hr, rfl⟩ := ha
    exact habs r hr
  · rintro rfl
    exact ⟨rfl, rfl⟩

/-- C2 witness: concrete failed and successful reservation attempts. -/
theorem C2_handleReserve_witness :
    (handleReserve .err (.ok []) initBooking 5).state = initBooking ∧
    (handleReserve .err (.ok []) initBooking 5).alerts =
      ["Error al reservar el turno"] ∧
    (handleReserve (.ok ()) (.ok []) initBooking 5).state =
      loadAppointments (.ok []) initBooking := by
  have h1 := (C2_handleReserve_spec .err (.ok []) initBooking 5).2.2 rfl
  have h2 := ((C2_handleReserve_spec (.ok ()) (.ok []) initBooking 5).2.1 () rfl).1
  exact ⟨h1.1, h1.2, h2⟩

/-- C3: a successful load maps each raw slot through the projection; each
projected record carries exactly the six spec fields: reading them off
matches the spec-side projection, and they determine the whole record (the
only further field is the constant empty avatar); the displayed date and
time are functions of the slot's datetime instant alone. -/
theorem C3_projection_spec (l : List RawSlot) (s : BookingState) :
    (loadAppointments (.ok l) s).appointments = l.map projectSlot ∧
    (∀ item, apptToSpec (projectSlot item) = projectSlotSpec item) ∧
    (∀ a b : RawSlot,
      apptToSpec (projectSlot a) = apptToSpec (projectSlot b) →
      projectSlot a = projectSlot b) ∧
    (∀ a b : RawSlot, a.datetime = b.datetime →
      (projectSlot a).date = (projectSlot b).date ∧
      (projectSlot a).time = (projectSlot b).time) := by
  refine ⟨rfl, fun item => rfl, ?_, ?_⟩
  · intro a b h
    simp only [apptToSpec, projectSlot, SpecDisplay.mk.injEq] at h
    simp only [projectSlot, Appt.mk.injEq]
    exact ⟨h.1, h.2.1, h.2.2.1, h.2.2.2.1, trivial, h.2.2.2.2.1, h.2.2.2.2.2⟩
  · intro a b h
    simp [projectSlot, h]

/-- C3 witness: the projection at the spec scenario's slot. -/
theorem C3_projection_witness :
    apptToSpec (projectSlot rawSlotA) = projectSlotSpec rawSlotA ∧
    (projectSlot rawSlotA).time = "02:00 PM" ∧
    (projectSlot rawSlotA).date = "Wed, May 1" := by
  refine ⟨(C3_projection_spec [] initBooking).2.1 rawSlotA, ?_, ?_⟩ <;> decide

/-- C4: when the slot fetch fails, whatever the prior state, the component
renders exactly one error message and no slot list at all (fail-closed). -/
theorem C4_failClosed (s : BookingState) :
    renderBooking (loadAppointments .err s) =
      .errored "Error loading available appointments" := by
  simp [renderBooking, loadAppointments]

/-- C4 witness: the fail-closed render from the initial state. -/
theorem C4_failClosed_witness :
    renderBooking (loadAppointments .err initBooking) =
      .errored "Error loading available appointments" :=
  C4_failClosed initBooking

/-- C5: a successful conversation fetch stores the projected list, whose
avatars default to the computed initials when the raw avatar is missing;
it auto-selects the head of a non-empty list; and on an empty list nothing
is selected and the dependent message effect issues no fetch and leaves the
state untouched. -/
theorem C5_loadConversations_spec (data : List RawConv) :
    (loadConversations (.ok data) initMsg).conversations =
      data.map projectConv ∧
    (∀ item : RawConv, item.avatar = none →
      (projectConv item).avatar = initials item.doctor) ∧
    (∀ c cs, data = c :: cs →
      (loadConversations (.ok data) initMsg).selectedConversation =
        some (projectConv c)) ∧
    (data = [] →
      (loadConversations (.ok data) initMsg).selectedConversation = none ∧
      ∀ fetch, loadMessages fetch (loadConversations (.ok data) initMsg) =
        (loadConversations (.ok data) initMsg, [])) := by
  refine ⟨?_, ?_, ?_, ?_⟩
  · cases data with
    | nil => rfl
    | cons c cs => rfl
  · intro item h
    simp [projectConv, h]
  · rintro c cs rfl
    rfl
  · rintro rfl
    exact ⟨rfl, fun fetch => rfl⟩

/-- C5 witness: the empty conversation list selects nothing and triggers no
message fetch; a concrete avatar-less record gets its computed initials; a
singleton list auto-selects its head. -/
theorem C5_loadConversations_witness :
    (loadConversations (.ok []) initMsg).selectedConversation = none ∧
    loadMessages (fun _ => .err) (loadConversations (.ok []) initMsg) =
      (loadConversations (.ok []) initMsg, []) ∧
    (projectConv rawConvA).avatar = initials rawConvA.doctor ∧
    (loadConversations (.ok [rawConvA]) initMsg).selectedConversation =
      some (projectConv rawConvA) := by
  have h1 := (C5_loadConversations_spec []).2.2.2 rfl
  have h2 := (C5_loadConversations_spec [rawConvA]).2.1 rawConvA rfl
  have h3 := (C5_loadConversations_spec [rawConvA]).2.2.1 rawConvA [] rfl
  exact ⟨h1.1, h1.2 _, h2, h3⟩

/-- C6: a failed conversation fetch is swallowed: starting from the initial
state the only change is the cleared loading flag, the conversation list
stays empty, and the sidebar renders the empty list (the messaging render
has no error branch, so no user-visible error exists). -/
theorem C6_convLoadFailureSwallowed :
    loadConversations .err initMsg =
      { initMsg with loadingConversations := false } ∧
    renderConvPanel (loadConversations .err initMsg) = .list [] := by
  exact ⟨rfl, rfl⟩

/-- C7: the conversation filter keeps exactly the conversations whose doctor
name or specialty contains the query as a case-insensitive substring; the
empty query keeps the whole list unchanged; and the result is always a
sublist of the fetched list, which is never altered. -/
theorem C7_filter_spec (convs : List Conv) (q : String) :
    (∀ c, c ∈ filteredConversations convs q ↔
      c ∈ convs ∧
        ((strToLower q).toList <:+: (strToLower c.doctor).toList ∨
         (strToLower q).toList <:+: (strToLower c.specialty).toList)) ∧
    filteredConversations convs "" = convs ∧
    (filteredConversations convs q).Sublist convs := by
  refine ⟨?_, ?_, List.filter_sublist convs⟩
  · intro c
    simp [filteredConversations, convMatches, strIncludes, List.mem_filter]
  · apply List.filter_eq_self.mpr
    intro c _
    simp [convMatches, strIncludes, strToLower, List.nil_infix]

/-- C7 witness: the filter evaluated on a concrete list and queries. -/
theorem C7_filter_witness :
    (convA ∈ filteredConversations [convA] "CARDIO" ↔
      convA ∈ [convA] ∧
        ((strToLower "CARDIO").toList <:+: (strToLower convA.doctor).toList ∨
         (strToLower "CARDIO").toList <:+:
           (strToLower convA.specialty).toList)) ∧
    filteredConversations [convA] "" = [convA] := by
  exact ⟨(C7_filter_spec [convA] "CARDIO").1 convA,
         (C7_filter_spec [convA] "").2.1⟩

/-- C8: toggling a period twice preserves the membership of every period in
the selection, and a single toggle flips the toggled period's membership
(adds it when absent, removes it when present). -/
theorem C8_toggleInvolution (S : List String) (p : String) :
    (∀ q, q ∈ toggleTimeOfDay p (toggleTimeOfDay p S) ↔ q ∈ S) ∧
    (p ∈ toggleTimeOfDay p S ↔ p ∉ S) := by
  have hmem : ∀ (l : List String) (x : String), l.contains x = true ↔ x ∈ l :=
    fun l x => by simp [List.elem_iff]
  by_cases hp : p ∈ S
  · have h1 : toggleTimeOfDay p S = S.filter (fun x => x != p) := by
      simp only [toggleTimeOfDay]
      rw [if_pos ((hmem S p).mpr hp)]
    have hnot : ¬ p ∈ S.filter (fun x => x != p) := by
      simp [List.mem_filter]
    have h2 : toggleTimeOfDay p (S.filter (fun x => x != p)) =
        S.filter (fun x => x != p) ++ [p] := by
      simp only [toggleTimeOfDay]
      rw [if_neg (fun hc => hnot ((hmem _ p).mp hc))]
    constructor
    · intro q
      rw [h1, h2]
      by_cases hq : q = p
      · subst hq
        simp [List.mem_append, hp]
      · simp [List.mem_append, List.mem_filter, bne_iff_ne, hq]
    · rw [h1]
      simp [hnot, hp]
  · have h1 : toggleTimeOfDay p S = S ++ [p] := by
      simp only [toggleTimeOfDay]
      rw [if_neg (fun hc => hp ((hmem S p).mp hc))]
    have h2 : toggleTimeOfDay p (S ++ [p]) = S := by
      have hc : (S ++ [p]).contains p = true := by
        rw [hmem]
        simp
      simp only [toggleTimeOfDay]
      rw [if_pos hc, List.filter_append]
      have hS : S.filter (fun x => x != p) = S := by
        apply List.filter_eq_self.mpr
        intro a ha
        simp only [bne_iff_ne, ne_eq, decide_eq_true_eq]
        exact fun h => hp (h ▸ ha)
      simp [hS]
    constructor
    · intro q
      rw [h1, h2]
    · rw [h1]
      simp [hp]

/-- C8 witness: toggling "afternoon" twice on the initial selection. -/
theorem C8_toggle_witness :
    ("afternoon" ∈ toggleTimeOfDay "afternoon"
        (toggleTimeOfDay "afternoon" ["afternoon"]) ↔
      "afternoon" ∈ ["afternoon"]) ∧
    ("afternoon" ∈ toggleTimeOfDay "afternoon" ["afternoon"] ↔
      "afternoon" ∉ ["afternoon"]) :=
  ⟨(C8_toggleInvolution ["afternoon"] "afternoon").1 "afternoon",
   (C8_toggleInvolution ["afternoon"] "afternoon").2⟩

/-- C9: pressing Enter without Shift in the composer clears the draft and
changes nothing else: no request is sent and the message list (and all other
state) is untouched. -/
theorem C9_enterClearsDraftOnly (s : MsgState) :
    handleComposerKeyDown "Enter" false s =
      ({ s with messageText := "" }, []) := by
  rfl

/-- C9 witness: the composer handler evaluated on a concrete state. -/
theorem C9_enter_witness :
    handleComposerKeyDown "Enter" false
        { msgStateA with messageText := "draft" } =
      ({ msgStateA with messageText := "" }, []) :=
  C9_enterClearsDraftOnly { msgStateA with messageText := "draft" }

/-- C10: when the message fetch for the selected conversation fails, the
only state change is the cleared loading flag: the previously loaded
messages and the selection are untouched (the one request was still
issued). -/
theorem C10_messageFetchFailureKeepsState
    (fetch : Nat → FetchResult (List RawMsg)) (s : MsgState) (conv : Conv)
    (hsel : s.selectedConversation = some conv)
    (hfail : fetch conv.id = .err) :
    loadMessages fetch s =
      ({ s with loadingMessages := false }, [(3, conv.id)]) := by
  simp [loadMessages, hsel, hfail, PATIENT_ID]

/-- C10 witness: a failing fetch on a state with `convA` selected and an
older message list loaded. -/
theorem C10_messageFetchFailure_witness :
    loadMessages (fun _ => .err) msgStateA =
      ({ msgStateA with loadingMessages := false }, [(3, 1)]) :=
  C10_messageFetchFailureKeepsState (fun _ => .err) msgStateA convA rfl rfl

/-- C1 counterexample: selecting conversation 1, then 2, then 1 again, with
conversation 2's response arriving last, leaves conversation 2's messages
displayed while conversation 1 is selected — the claimed invariant fails
under out-of-order completion. -/
theorem C1_counterexample :
    (raceRun fetchEx adverseTrace).selected = some 1 ∧
    decide ((raceRun fetchEx adverseTrace).messages =
      (fetchEx 1).map projectMsg) = false ∧
    (raceRun fetchEx adverseTrace).messages = (fetchEx 2).map projectMsg := by
  refine ⟨?_, ?_, ?_⟩ <;> decide

/-- Preservation of `RaceInv` by one FIFO step. -/
theorem raceStep_fifo_inv (fetch : Nat → List RawMsg) (s : RaceState)
    (e : MEvent)
    (he : (match e with
           | MEvent.complete i => i == 0
           | MEvent.select _ => true) = true)
    (h : RaceInv fetch s) : RaceInv fetch (raceStep fetch s e) := by
  cases e with
  | select c =>
      constructor
      · intro hp
        exfalso
        simp [raceStep] at hp
      · intro _
        simp [raceStep, List.getLast?_concat]
  | complete i =>
      have hi : i = 0 := by simpa using he
      subst hi
      cases hpend : s.pending with
      | nil =>
          have : raceStep fetch s (MEvent.complete 0) = s := by
            simp [raceStep, hpend]
          rw [this]
          exact h
      | cons c rest =>
          have hstep : raceStep fetch s (MEvent.complete 0) =
              { s with pending := rest,
                       messages := (fetch c).map projectMsg } := by
            simp [raceStep, hpend]
          rw [hstep]
          have hlast : (c :: rest).getLast? = s.selected := by
            rw [← hpend]
            exact h.2 (by rw [hpend]; simp)
          constructor
          · intro hrest c' hc'
            subst hrest
            simp only at hc'
            have : some c = s.selected := by simpa using hlast
            rw [hc'] at this
            obtain rfl : c = c' := Option.some.inj this
            rfl
          · intro hrest
            cases rest with
            | nil => exact absurd rfl hrest
            | cons r rs =>
                have : (c :: r :: rs).getLast? = (r :: rs).getLast? :=
                  List.getLast?_cons_cons
                simp only
                rw [← this, hlast]

/-- The invariant holds after any FIFO trace from an invariant state. -/
theorem raceFold_fifo_inv (fetch : Nat → List RawMsg) :
    ∀ (evs : List MEvent) (s : RaceState), isFifo evs = true →
      RaceInv fetch s → RaceInv fetch (evs.foldl (raceStep fetch) s) := by
  intro evs
  induction evs with
  | nil =>
      intro s _ hs
      exact hs
  | cons e es ih =>
      intro s hf hs
      rw [isFifo, List.all_cons, Bool.and_eq_true] at hf
      exact ih _ hf.2 (raceStep_fifo_inv fetch s e hf.1 hs)

/-- The initial race state satisfies the invariant. -/
theorem raceInit_inv (fetch : Nat → List RawMsg) : RaceInv fetch raceInit :=
  ⟨fun _ c hc => by simp [raceInit] at hc, fun hne => absurd rfl hne⟩

/-- C1 (amended): provided fetch responses arrive in the order the fetches
were issued (FIFO) and every in-flight fetch has completed, the messages
displayed are exactly those last fetched for the currently selected
conversation. -/
theorem C1_fifo_lastFetchDisplayed (fetch : Nat → List RawMsg)
    (evs : List MEvent) (c : Nat) (hf : isFifo evs = true)
    (hq : (raceRun fetch evs).pending = [])
    (hsel : (raceRun fetch evs).selected = some c) :
    (raceRun fetch evs).messages = (fetch c).map projectMsg :=
  (raceFold_fifo_inv fetch evs raceInit hf (raceInit_inv fetch)).1 hq c hsel

/-- C1 witness: a concrete FIFO trace selecting conversation 1 then 2, with
each response arriving before the next selection. -/
theorem C1_fifo_witness :
    isFifo fifoTrace = true ∧
    (raceRun fetchEx fifoTrace).pending = [] ∧
    (raceRun fetchEx fifoTrace).selected = some 2 ∧
    (raceRun fetchEx fifoTrace).messages = (fetchEx 2).map projectMsg :=
  ⟨by decide, by decide, by decide,
   C1_fifo_lastFetchDisplayed fetchEx fifoTrace 2 (by decide) (by decide)
     (by decide)⟩

end Medsuy
